import Mathlib

/-!
Shallow embedding of `src/solution/solution.ino` (a dice-rolling gadget
firmware for an Arduino-style board) together with proofs about its
timer, debounced-button, dice-engine, display and controller logic.

Modelling conventions:
* `unsigned long` is a 32-bit wrapping counter; we model its values as
  `Nat` and perform every operation modulo `U32 = 2^32`.  Wrapping
  subtraction `a - b` on `unsigned long` is modelled by `wsub`.
* C++ `int` is modelled as `Int`; `%` and `/` on `int` truncate toward
  zero, which is `Int.tmod` / `Int.tdiv`.
* The external randomness source `random(n)` (which returns a value in
  `[0, n)`) is modelled by an oracle `rand : Nat → Int` giving the value
  drawn for the i-th die; theorems that depend on its range carry the
  hypothesis `0 ≤ rand i < n` explicitly.
* The `digits` glyph table lives in the external header `funshield.h`;
  it is taken as an arbitrary parameter `digitsTable` where needed.
* Global C++ objects are zero-initialised before `setup` runs, so the
  fields that the source never assigns in `init` (`current_active_index`,
  `display_buffer`) start as `0` / `'\0'` cells.
-/

namespace DiceFw

/-- Modulus of the `unsigned long` millisecond counter. -/
def U32 : Nat := 2 ^ 32

/-- Wrapping (modulo `2^32`) unsigned subtraction `a - b`. -/
def wsub (a b : Nat) : Nat := (a % U32 + U32 - b % U32) % U32

/-- `enum Button_signal {RELEASED, PRESSED, NOTHING}`. -/
inductive Button_signal where
  | RELEASED
  | PRESSED
  | NOTHING
deriving DecidableEq

export Button_signal (RELEASED PRESSED NOTHING)

/-- `enum Program_state {CONFIG, IDLE, GENERATING}`. -/
inductive Program_state where
  | CONFIG
  | IDLE
  | GENERATING
deriving DecidableEq

export Program_state (CONFIG IDLE GENERATING)

/-- `constexpr int dice_types[] = {4,6,8,10,12,20,100};` -/
def dice_types : List Int := [4, 6, 8, 10, 12, 20, 100]

/-- `constexpr int dice_types_length = 7;` -/
def dice_types_length : Int := 7

/-! ## Timer -/

/-- State of `class Timer`: an interval and the last deadline, both
`unsigned long`. -/
structure Timer where
  delay : Nat
  last_event : Nat
deriving DecidableEq

/-- `Timer::init(init_time, init_delay)`. -/
def Timer.init (init_time init_delay : Nat) : Timer :=
  { last_event := init_time % U32, delay := init_delay % U32 }

/-- `Timer::should_signal(time_now)`: computes the wrapping difference
`time_now - last_event`; if it reaches `delay`, advances `last_event`
by `delay` (additively, not to `time_now`) and returns `true`. -/
def Timer.should_signal (t : Timer) (time_now : Nat) : Bool × Timer :=
  let diff := wsub time_now t.last_event
  if t.delay ≤ diff then
    (true, { t with last_event := (t.last_event + t.delay) % U32 })
  else
    (false, t)

/-- `Timer::reset_last_event_time(time_now)`. -/
def Timer.reset_last_event_time (t : Timer) (time_now : Nat) : Timer :=
  { t with last_event := time_now % U32 }

/-- Iterate `should_signal` over a list of poll times, collecting the
returned booleans. -/
def Timer.run (t : Timer) : List Nat → List Bool × Timer
  | [] => ([], t)
  | time_now :: rest =>
      let p := t.should_signal time_now
      let q := p.2.run rest
      (p.1 :: q.1, q.2)

/-- The poll times `l + d, l + 2*d, …, l + n*d`, reduced modulo `2^32`:
the successive interval boundaries after deadline `l`. -/
def boundaryTimes (l d n : Nat) : List Nat :=
  (List.range n).map (fun k => (l + (k + 1) * d) % U32)

/-! ## Button -/

/-- State of `class Button` (the pin number is irrelevant to the logic;
the raw reading enters `get_signal` as the `pressed` argument, which is
the value of `is_pressed()`, i.e. the active-low pin level already
inverted). -/
structure Button where
  debouncing : Bool
  down : Bool
  last_event : Nat
deriving DecidableEq

/-- `Button::init`. -/
def Button.init : Button :=
  { debouncing := false, down := false, last_event := 0 }

/-- `Button::get_signal(time_now)` with the raw reading `pressed`
(the result of `is_pressed()`) supplied as input. -/
def Button.get_signal (b : Button) (pressed : Bool) (time_now : Nat) :
    Button_signal × Button :=
  if b.debouncing then
    let time_diff := wsub time_now b.last_event
    let b' := if 5 ≤ time_diff then { b with debouncing := false } else b
    (NOTHING, b')
  else
    if b.down then
      if !pressed then
        (RELEASED, { debouncing := true, down := false, last_event := time_now % U32 })
      else
        (NOTHING, b)
    else
      if pressed then
        (PRESSED, { debouncing := true, down := true, last_event := time_now % U32 })
      else
        (NOTHING, b)

/-- Iterate `get_signal` over a list of `(pressed, time)` polls. -/
def Button.run (b : Button) : List (Bool × Nat) → List Button_signal × Button
  | [] => ([], b)
  | (pressed, time_now) :: rest =>
      let p := b.get_signal pressed time_now
      let q := p.2.run rest
      (p.1 :: q.1, q.2)

/-! ## Dice engine -/

/-- State of `class Dice`.  The 9-element `int dice[]` array is modelled
as a total function `Nat → Int`; under the configuration invariant only
indices `< current_dice_amount ≤ 9` are ever read or written. -/
structure Dice where
  roll_start_time : Nat
  dice : Nat → Int
  current_dice_amount : Int
  current_type_index : Int
  last_roll : Int
  is_first_roll : Bool

/-- `Dice::get_dice_sum`: sum of `dice[0..current_dice_amount)`. -/
def Dice.get_dice_sum (d : Dice) : Int :=
  ((List.range d.current_dice_amount.toNat).map d.dice).sum

/-- `Dice::refresh_all_dice`: sets `dice[i] = random(faces) + 1` for
`i < current_dice_amount`; the draw for index `i` is `rand i`. -/
def Dice.refresh_all_dice (d : Dice) (rand : Nat → Int) : Dice :=
  { d with dice := fun i => if (i : Int) < d.current_dice_amount then rand i + 1 else d.dice i }

/-- `Dice::init()`: type index 1 (d6), one die, memory cleared (`-1`),
first-roll flag set.  The `dice` array is left unwritten; as a global
object it is zero-initialised. -/
def Dice.init : Dice :=
  { roll_start_time := 0
    dice := fun _ => 0
    current_dice_amount := 1
    current_type_index := 1
    last_roll := -1
    is_first_roll := true }

/-- `Dice::start_roll(time_now)`. -/
def Dice.start_roll (d : Dice) (time_now : Nat) : Dice :=
  { d with roll_start_time := time_now % U32 }

/-- `Dice::finish_roll(time_now)`: on the first call clears the
first-roll flag and seeds the external RNG (the seeding itself lives
outside the model — the oracle `rand` stands for the seeded stream);
then refreshes all dice, stores their sum in `last_roll` and returns it. -/
def Dice.finish_roll (d : Dice) (rand : Nat → Int) (_time_now : Nat) : Int × Dice :=
  let d1 := if d.is_first_roll then { d with is_first_roll := false } else d
  let d2 := d1.refresh_all_dice rand
  let d3 := { d2 with last_roll := d2.get_dice_sum }
  (d3.last_roll, d3)

/-- `Dice::next_dice_type()`: `current_type_index++; %= dice_types_length`. -/
def Dice.next_dice_type (d : Dice) : Dice :=
  { d with current_type_index := (d.current_type_index + 1).tmod dice_types_length }

/-- `Dice::get_dice_type()`: `dice_types[current_type_index]`. -/
def Dice.get_dice_type (d : Dice) : Int :=
  dice_types.getD d.current_type_index.toNat 0

/-- The digit-counting loop of `Dice::get_max_digits_amount`. -/
def digits_loop (n : Nat) : Nat :=
  if h : 0 < n then digits_loop (n / 10) + 1 else 0
decreasing_by exact Nat.div_lt_self h (by omega)

/-- `Dice::get_max_digits_amount()`: number of decimal digits of
`dice_types[current_type_index] * current_dice_amount`. -/
def Dice.get_max_digits_amount (d : Dice) : Nat :=
  digits_loop (d.get_dice_type * d.current_dice_amount).toNat

/-- `Dice::next_dice_amount()`: increment, reset to 1 past 9. -/
def Dice.next_dice_amount (d : Dice) : Dice :=
  let amount := d.current_dice_amount + 1
  { d with current_dice_amount := if 9 < amount then 1 else amount }

/-- `Dice::get_dice_amount()`. -/
def Dice.get_dice_amount (d : Dice) : Int :=
  d.current_dice_amount

/-- `Dice::reset_roll_memory()`: `last_roll = -1`. -/
def Dice.reset_roll_memory (d : Dice) : Dice :=
  { d with last_roll := -1 }

/-- `Dice::has_roll_in_memory()`: `last_roll != -1`. -/
def Dice.has_roll_in_memory (d : Dice) : Bool :=
  d.last_roll != -1

/-- `Dice::get_last_roll()`. -/
def Dice.get_last_roll (d : Dice) : Int :=
  d.last_roll

/-! ## Display -/

/-- `static constexpr byte empty_glyph = 0b11111111;` -/
def empty_glyph : Nat := 0xff

/-- `static constexpr byte d_glyph = 0b10100001;` -/
def d_glyph : Nat := 0xa1

/-- `static constexpr byte animation_start_frame = 0x80;` -/
def animation_start_frame : Nat := 0x80

/-- `static constexpr byte animation_end_frame = 0x04;` -/
def animation_end_frame : Nat := 0x04

/-- `Display::write_next_number(number, index, digit_limit)`: writes the
decimal digits of `number` least-significant-first at `index`, moving
left, stopping after `digit_limit` digits or when the remaining quotient
drops below 1.  Returns the updated buffer and index.  C++ `%` and `/`
on `int` truncate toward zero (`Int.tmod` / `Int.tdiv`); the character
stored is `(char)(remainder + '0')`. -/
def write_next_number (buffer : Nat → Char) (number index : Int) :
    Nat → (Nat → Char) × Int
  | 0 => (buffer, index)
  | digit_limit + 1 =>
      let remainder := Int.tmod number 10
      let buffer' := fun (j : Nat) =>
        if (j : Int) = index then Char.ofNat (remainder + 48).toNat else buffer j
      let number' := Int.tdiv number 10
      if number' < 1 then (buffer', index - 1)
      else write_next_number buffer' number' (index - 1) digit_limit

/-- `Display::erase_others(index)`: blanks buffer cells `index` down
to 0. -/
def erase_others (buffer : Nat → Char) (index : Int) : Nat → Char :=
  fun j => if (j : Int) ≤ index then ' ' else buffer j

/-- The glyph `Display::output_char(ch, pos)` shifts out for `ch`:
the `d` glyph for `'d'`, a digit glyph for `'0'..'9'`, otherwise the
blank glyph.  `digitsTable` is the `digits[]` array of `funshield.h`. -/
def output_char_glyph (digitsTable : Nat → Nat) (ch : Char) : Nat :=
  if ch = 'd' then d_glyph
  else if '0' ≤ ch ∧ ch ≤ '9' then digitsTable (ch.toNat - 48)
  else empty_glyph

/-- Buffer effect of `Display::write_number(number)`. -/
def write_number (buffer : Nat → Char) (number : Int) : Nat → Char :=
  let p := write_next_number buffer number 3 4
  erase_others p.1 p.2

/-- Buffer effect of `Display::write_config_string(amount, type)`. -/
def write_config_string (buffer : Nat → Char) (amount typ : Int) : Nat → Char :=
  let p := write_next_number buffer typ 3 2
  let buffer1 := fun (j : Nat) => if (j : Int) = p.2 then 'd' else p.1 j
  let q := write_next_number buffer1 amount (p.2 - 1) 1
  erase_others q.1 q.2

/-- State of `class Display` (hardware shift-register writes are outside
the model; the buffer is the `char display_buffer[5]`, of which cells
0..3 are rendered). -/
structure Display where
  multiplex_timer : Timer
  animation_timer : Timer
  current_animation_frame : Nat
  current_active_index : Int
  display_buffer : Nat → Char

/-- `Display::init(init_time)`: arms the two timers (multiplex delay 1,
animation delay 50) and sets the start frame.  `current_active_index`
and `display_buffer` are not assigned; as parts of a global object they
are zero-initialised. -/
def Display.init (init_time : Nat) : Display :=
  { multiplex_timer := Timer.init init_time 1
    animation_timer := Timer.init init_time 50
    current_animation_frame := animation_start_frame
    current_active_index := 0
    display_buffer := fun _ => Char.ofNat 0 }

/-- `Display::next_animation()`: shift the frame right one bit; reset to
the start frame when it falls below the end frame. -/
def Display.next_animation (dp : Display) : Display :=
  let frame := dp.current_animation_frame >>> 1
  { dp with current_animation_frame :=
      if frame < animation_end_frame then animation_start_frame else frame }

/-- `Display::update_active_index(time_now)`. -/
def Display.update_active_index (dp : Display) (time_now : Nat) : Display :=
  let p := dp.multiplex_timer.should_signal time_now
  if p.1 then
    { dp with multiplex_timer := p.2,
              current_active_index := (dp.current_active_index + 1).tmod 4 }
  else
    { dp with multiplex_timer := p.2 }

/-- State effect of `Display::multiplex(time_now)` (the `output_char`
hardware write has no state). -/
def Display.multiplex (dp : Display) (time_now : Nat) : Display :=
  dp.update_active_index time_now

/-- State effect of `Display::multiplex_animation(time_now, max_digits)`. -/
def Display.multiplex_animation (dp : Display) (time_now : Nat)
    (max_digits_amount : Nat) : Display :=
  let dp1 := dp.update_active_index time_now
  if (max_digits_amount : Int) ≤ dp1.current_active_index then
    { dp1 with current_active_index := 0 }
  else dp1

/-- `Display::write_number(number)` at the object level. -/
def Display.write_number (dp : Display) (number : Int) : Display :=
  { dp with display_buffer := DiceFw.write_number dp.display_buffer number }

/-- `Display::write_config_string(amount, type)` at the object level. -/
def Display.write_config_string (dp : Display) (amount typ : Int) : Display :=
  { dp with display_buffer := DiceFw.write_config_string dp.display_buffer amount typ }

/-- `Display::prepare_animation(time_now)`. -/
def Display.prepare_animation (dp : Display) (time_now : Nat) : Display :=
  { dp with current_animation_frame := animation_start_frame,
            animation_timer := dp.animation_timer.reset_last_event_time time_now }

/-- `Display::should_animate(time_now)`. -/
def Display.should_animate (dp : Display) (time_now : Nat) : Bool × Display :=
  let p := dp.animation_timer.should_signal time_now
  (p.1, { dp with animation_timer := p.2 })

/-- The four rendered cells of a display buffer. -/
def buf_cells (buffer : Nat → Char) : List Char :=
  [buffer 0, buffer 1, buffer 2, buffer 3]

/-! ## Controller -/

/-- The global program state touched by `loop()`: `current_state`, the
`Dice` engine and the `Display`. -/
structure Sys where
  current_state : Program_state
  dice : Dice
  disp : Display

/-- The state established by `setup()` at time `time_now`: state
`CONFIG`, `dice.init()`, display initialised and showing the config
string (1d6). -/
def setup (time_now : Nat) : Sys :=
  { current_state := CONFIG
    dice := Dice.init
    disp := (Display.init time_now).write_config_string
        Dice.init.get_dice_amount Dice.init.get_dice_type }

/-- One iteration of `loop()`, with the three button signals for this
tick supplied as inputs (the buttons themselves are modelled
separately) and the random draws of a possible `finish_roll` supplied
by the oracle `rand`. -/
def tick (s : Sys) (roll_signal type_signal amount_signal : Button_signal)
    (time_now : Nat) (rand : Nat → Int) : Sys :=
  let s1 :=
    match s.current_state with
    | IDLE =>
        -- IDLE -> GENERATING
        let sa :=
          if roll_signal = PRESSED ∨ ¬ s.dice.has_roll_in_memory then
            { s with dice := s.dice.start_roll time_now,
                     disp := ((s.disp.prepare_animation time_now).next_animation),
                     current_state := GENERATING }
          else s
        -- IDLE -> CONFIG
        if type_signal = PRESSED ∨ amount_signal = PRESSED then
          { sa with disp := sa.disp.write_config_string
                      sa.dice.get_dice_amount sa.dice.get_dice_type,
                    current_state := CONFIG }
        else sa
    | CONFIG =>
        -- change dice type
        let sa :=
          if type_signal = PRESSED then
            let dice' := s.dice.reset_roll_memory.next_dice_type
            { s with dice := dice',
                     disp := s.disp.write_config_string
                       dice'.get_dice_amount dice'.get_dice_type }
          else s
        -- change dice amount
        let sb :=
          if amount_signal = PRESSED then
            let dice' := sa.dice.reset_roll_memory.next_dice_amount
            { sa with dice := dice',
                      disp := sa.disp.write_config_string
                        dice'.get_dice_amount dice'.get_dice_type }
          else sa
        -- CONFIG -> IDLE (shows the last roll result)
        if roll_signal = PRESSED then
          { sb with disp := sb.disp.write_number sb.dice.get_last_roll,
                      current_state := IDLE }
        else sb
    | GENERATING =>
        -- GENERATING -> IDLE
        if roll_signal = RELEASED then
          let p := s.dice.finish_roll rand time_now
          { s with dice := p.2, disp := s.disp.write_number p.1,
                   current_state := IDLE }
        else
          let p := s.disp.should_animate time_now
          { s with disp := if p.1 then p.2.next_animation else p.2 }
  -- display servicing at the end of every tick
  if s1.current_state = GENERATING then
    { s1 with disp := s1.disp.multiplex_animation time_now
                  s1.dice.get_max_digits_amount }
  else
    { s1 with disp := s1.disp.multiplex time_now }

/-! ## Configuration operations (for the invariant claims) -/

/-- The two externally reachable configuration mutations. -/
inductive ConfigOp where
  | typeOp
  | amountOp

/-- Apply a sequence of configuration operations to a dice engine. -/
def applyOps (d : Dice) : List ConfigOp → Dice
  | [] => d
  | ConfigOp.typeOp :: rest => applyOps d.next_dice_type rest
  | ConfigOp.amountOp :: rest => applyOps d.next_dice_amount rest

/-! ## Helper lemmas -/

lemma wsub_boundary (l d : Nat) (hdU : d < U32) :
    wsub ((l + d) % U32) (l % U32) = d := by
  unfold wsub U32 at *
  omega

lemma wsub_after_advance (l d now : Nat) (hdU : d < U32) (hl : l < U32)
    (h1 : d ≤ wsub now l) (h2 : wsub now l < 2 * d) :
    wsub now ((l + d) % U32) = wsub now l - d := by
  unfold wsub U32 at *
  omega

lemma tmod7_bounds (i : Int) (h0 : 0 ≤ i) (h7 : i < 7) :
    0 ≤ (i + 1).tmod 7 ∧ (i + 1).tmod 7 < 7 := by
  interval_cases i <;> decide

lemma timer_run_boundaries_aux (d : Nat) (hdU : d < U32) :
    ∀ (n l : Nat), Timer.run ⟨d, l % U32⟩ (boundaryTimes l d n) =
      (List.replicate n true, ⟨d, (l + n * d) % U32⟩) := by
  intro n
  induction n with
  | zero =>
      intro l
      simp [Timer.run, boundaryTimes]
  | succ n ih =>
      intro l
      have htail : boundaryTimes l d (n + 1) =
          ((l + d) % U32) :: boundaryTimes (l + d) d n := by
        unfold boundaryTimes
        rw [List.range_succ_eq_map]
        simp only [List.map_cons, List.map_map]
        congr 1
        · congr 1
          ring
        · apply List.map_congr_left
          intro k _
          simp only [Function.comp_apply, Nat.succ_eq_add_one]
          congr 1
          ring
      have hdiff := wsub_boundary l d hdU
      have hstate : (l % U32 + d) % U32 = (l + d) % U32 := by
        unfold U32
        omega
      have hfire : Timer.should_signal ⟨d, l % U32⟩ ((l + d) % U32) =
          (true, ⟨d, (l + d) % U32⟩) := by
        unfold Timer.should_signal
        simp only [hdiff]
        simp [hstate]
      rw [htail]
      simp only [Timer.run]
      rw [hfire]
      simp only []
      have harith : l + d + n * d = l + (n + 1) * d := by ring
      have hrest := ih (l + d)
      rw [harith] at hrest
      rw [hrest]
      simp [List.replicate_succ]

/-! ## Claim C1: timer contract -/

/-- C1: `Timer::should_signal` returns true — and then advances
`last_event` by exactly `delay` (additively, not to `time_now`) — if and
only if the wrapping unsigned difference `time_now - last_event` is at
least `delay`; polling at the successive interval boundaries
`l + d, l + 2d, …, l + n·d` (taken modulo `2^32`, so also across counter
overflow) fires exactly once per boundary with `last_event` tracking
`l + k·d` exactly (no cumulative drift), and an immediate repeat call
within the same interval does not fire again. -/
theorem timer_should_signal_contract (d l now n : Nat)
    (hd0 : 0 < d) (hdU : d < U32) (hl : l < U32) :
    (((Timer.mk d l).should_signal now).1 = true ↔ d ≤ wsub now l) ∧
    (((Timer.mk d l).should_signal now).2.last_event =
      if d ≤ wsub now l then (l + d) % U32 else l) ∧
    (Timer.run (Timer.mk d l) (boundaryTimes l d n) =
      (List.replicate n true, Timer.mk d ((l + n * d) % U32))) ∧
    (d ≤ wsub now l → wsub now l < 2 * d →
      (((Timer.mk d l).should_signal now).2.should_signal now).1 = false) := by
  have hlmod : l % U32 = l := Nat.mod_eq_of_lt hl
  refine ⟨?_, ?_, ?_, ?_⟩
  · by_cases hc : d ≤ wsub now l <;> simp [Timer.should_signal, hc]
  · by_cases hc : d ≤ wsub now l <;> simp [Timer.should_signal, hc]
  · have h := timer_run_boundaries_aux d hdU n l
    rw [hlmod] at h
    exact h
  · intro h1 h2
    have hdiff2 := wsub_after_advance l d now hdU hl h1 h2
    have hfalse : ¬ d ≤ wsub now ((l + d) % U32) := by omega
    simp [Timer.should_signal, h1, hfalse]

/-- Witness for C1 at `delay = 10`, `last_event = 0`, `time_now = 15`,
`n = 3` boundaries. -/
theorem timer_should_signal_contract_witness :
    (0 < 10 ∧ 10 < U32 ∧ 0 < U32) ∧
    ((((Timer.mk 10 0).should_signal 15).1 = true ↔ 10 ≤ wsub 15 0) ∧
    (((Timer.mk 10 0).should_signal 15).2.last_event =
      if 10 ≤ wsub 15 0 then (0 + 10) % U32 else 0) ∧
    (Timer.run (Timer.mk 10 0) (boundaryTimes 0 10 3) =
      (List.replicate 3 true, Timer.mk 10 ((0 + 3 * 10) % U32))) ∧
    (10 ≤ wsub 15 0 → wsub 15 0 < 2 * 10 →
      (((Timer.mk 10 0).should_signal 15).2.should_signal 15).1 = false)) :=
  ⟨⟨by norm_num, by norm_num [U32], by norm_num [U32]⟩,
    timer_should_signal_contract 10 0 15 3 (by norm_num)
      (by norm_num [U32]) (by norm_num [U32])⟩

/-! ## Claim C5: configuration invariant -/

lemma config_invariant_step (ops : List ConfigOp) :
    ∀ (d : Dice),
      0 ≤ d.current_type_index → d.current_type_index < 7 →
      1 ≤ d.current_dice_amount → d.current_dice_amount ≤ 9 →
      (0 ≤ (applyOps d ops).current_type_index ∧
        (applyOps d ops).current_type_index < 7) ∧
      (1 ≤ (applyOps d ops).current_dice_amount ∧
        (applyOps d ops).current_dice_amount ≤ 9) := by
  induction ops with
  | nil =>
      intro d h1 h2 h3 h4
      exact ⟨⟨h1, h2⟩, h3, h4⟩
  | cons op rest ih =>
      intro d h1 h2 h3 h4
      cases op with
      | typeOp =>
          simp only [applyOps]
          have hb := tmod7_bounds d.current_type_index h1 h2
          exact ih d.next_dice_type
            (by simpa [Dice.next_dice_type, dice_types_length] using hb.1)
            (by simpa [Dice.next_dice_type, dice_types_length] using hb.2)
            (by simpa [Dice.next_dice_type] using h3)
            (by simpa [Dice.next_dice_type] using h4)
      | amountOp =>
          simp only [applyOps]
          refine ih d.next_dice_amount
            (by simpa [Dice.next_dice_amount] using h1)
            (by simpa [Dice.next_dice_amount] using h2)
            ?_ ?_
          · simp only [Dice.next_dice_amount]
            split <;> omega
          · simp only [Dice.next_dice_amount]
            split <;> omega

/-- C5: after `Dice::init` and any sequence of `next_dice_type` /
`next_dice_amount` calls, `current_type_index` is a valid index into the
7-entry face table `{4,6,8,10,12,20,100}` and `current_dice_amount` is
in 1..9; moreover both increments wrap around — 7 type increments and 9
amount increments each return to the initial configuration. -/
theorem dice_config_invariant (ops : List ConfigOp) :
    (0 ≤ (applyOps Dice.init ops).current_type_index ∧
      (applyOps Dice.init ops).current_type_index < dice_types_length) ∧
    (1 ≤ (applyOps Dice.init ops).current_dice_amount ∧
      (applyOps Dice.init ops).current_dice_amount ≤ 9) ∧
    (applyOps Dice.init (List.replicate 7 ConfigOp.typeOp)).current_type_index =
      Dice.init.current_type_index ∧
    (applyOps Dice.init (List.replicate 9 ConfigOp.amountOp)).current_dice_amount =
      Dice.init.current_dice_amount := by
  have key := config_invariant_step ops Dice.init
    (by norm_num [Dice.init]) (by norm_num [Dice.init])
    (by norm_num [Dice.init]) (by norm_num [Dice.init])
  refine ⟨⟨key.1.1, by simpa [dice_types_length] using key.1.2⟩, key.2, ?_, ?_⟩
  · decide
  · decide

/-! ## Claim C2: debounced button -/

lemma button_constant_level_aux (lvl : Bool) :
    ∀ (polls : List (Bool × Nat)) (b : Button),
      (∀ p ∈ polls, p.1 = lvl) → b.down = lvl →
      (b.run polls).1 = List.replicate polls.length NOTHING ∧
      (b.run polls).2.down = lvl := by
  intro polls
  induction polls with
  | nil =>
      intro b _ hdown
      exact ⟨rfl, hdown⟩
  | cons p rest ih =>
      intro b hall hdown
      obtain ⟨pr, t⟩ := p
      have hpl : pr = lvl := hall (pr, t) (by simp)
      subst hpl
      have hstep : (b.get_signal pr t).1 = NOTHING ∧
          (b.get_signal pr t).2.down = pr := by
        by_cases hdeb : b.debouncing
        · refine ⟨?_, ?_⟩
          · simp [Button.get_signal, hdeb]
          · simp only [Button.get_signal, hdeb, if_true]
            split <;> simp [hdown]
        · cases hpr : pr <;>
            simp_all [Button.get_signal]
      have hrest : ∀ q ∈ rest, q.1 = pr := fun q hq => hall q (by simp [hq])
      have haux := ih (b.get_signal pr t).2 hrest hstep.2
      simp only [Button.run, List.length_cons, List.replicate_succ]
      refine ⟨?_, haux.2⟩
      rw [hstep.1, haux.1]

/-- C2: starting from a stable (non-debouncing) button whose `down` flag
disagrees with the new constant raw level — i.e. the pin has just made
one transition — the first poll emits exactly one edge signal
(`PRESSED` on a rising reading with `down = false`, `RELEASED` on a
falling reading with `down = true`) and every later poll at that
constant level returns `NOTHING`, so the edge is never duplicated;
moreover every call made while the debounce cooldown is active returns
`NOTHING` (the cooldown exit itself is never a signal). -/
theorem button_debounce_contract (b : Button) (lvl : Bool) (t0 : Nat)
    (rest : List (Bool × Nat)) (b2 : Button) (p2 : Bool) (t2 : Nat)
    (hstable : b.debouncing = false) (hdown : b.down = !lvl)
    (hconst : ∀ p ∈ rest, p.1 = lvl) (hdeb2 : b2.debouncing = true) :
    (b.run ((lvl, t0) :: rest)).1 =
      (if lvl then PRESSED else RELEASED) :: List.replicate rest.length NOTHING ∧
    (b2.get_signal p2 t2).1 = NOTHING := by
  constructor
  · have hedge : (b.get_signal lvl t0).1 = (if lvl then PRESSED else RELEASED) ∧
        (b.get_signal lvl t0).2.down = lvl := by
      cases hl : lvl <;> rw [hl] at hdown <;>
        simp_all [Button.get_signal]
    have haux := button_constant_level_aux lvl rest (b.get_signal lvl t0).2
      hconst hedge.2
    simp only [Button.run]
    rw [hedge.1, haux.1]
  · simp [Button.get_signal, hdeb2]

/-- Witness for C2: a press (rising reading) at time 0 followed by
constant held polls through and past the 5 ms debounce window. -/
theorem button_debounce_contract_witness :
    (Button.init.debouncing = false ∧ Button.init.down = !true ∧
      (∀ p ∈ [((true : Bool), (1 : Nat)), (true, 6), (true, 7)], p.1 = true) ∧
      (Button.mk true false 0).debouncing = true) ∧
    ((Button.init.run ((true, 0) :: [((true : Bool), (1 : Nat)), (true, 6), (true, 7)])).1 =
      (if true then PRESSED else RELEASED) ::
        List.replicate [((true : Bool), (1 : Nat)), (true, 6), (true, 7)].length NOTHING ∧
    ((Button.mk true false 0).get_signal false 3).1 = NOTHING) :=
  ⟨⟨by decide, by decide, by decide, by decide⟩,
    button_debounce_contract Button.init true 0
      [((true : Bool), (1 : Nat)), (true, 6), (true, 7)]
      (Button.mk true false 0) false 3
      (by decide) (by decide) (by decide) (by decide)⟩

/-! ## Claims C4 and C6: dice sums and the sentinel -/

lemma sum_range_map_bounds (m : Nat) (f : Nat → Int) (F : Int)
    (h : ∀ i, i < m → 1 ≤ f i ∧ f i ≤ F) :
    (m : Int) ≤ ((List.range m).map f).sum ∧
    ((List.range m).map f).sum ≤ F * m := by
  induction m with
  | zero => simp
  | succ m ih =>
      have hm := ih (fun i hi => h i (by omega))
      have hlast := h m (by omega)
      rw [List.range_succ, List.map_append, List.sum_append]
      simp only [List.map_cons, List.map_nil, List.sum_cons, List.sum_nil]
      push_cast
      constructor
      · linarith [hm.1, hlast.1]
      · have : F * ((m : Int) + 1) = F * m + F := by ring
        rw [this]
        linarith [hm.2, hlast.2]

lemma refresh_sum (dice0 : Nat → Int) (amount : Int) (rand : Nat → Int) :
    ((List.range amount.toNat).map
      (fun (i : Nat) => if (i : Int) < amount then rand i + 1 else dice0 i)).sum =
    ((List.range amount.toNat).map (fun i => rand i + 1)).sum := by
  apply congrArg
  apply List.map_congr_left
  intro i hi
  rw [List.mem_range] at hi
  have hlt : (i : Int) < amount := by omega
  simp [hlt]

lemma finish_roll_val (d : Dice) (rand : Nat → Int) (now : Nat) :
    (d.finish_roll rand now).1 =
      ((List.range d.current_dice_amount.toNat).map (fun (i : Nat) => rand i + 1)).sum ∧
    (d.finish_roll rand now).2.last_roll = (d.finish_roll rand now).1 := by
  refine ⟨?_, rfl⟩
  unfold Dice.finish_roll Dice.refresh_all_dice Dice.get_dice_sum
  cases hf : d.is_first_roll
  · simp only [hf, Bool.false_eq_true, if_false]
    exact refresh_sum d.dice d.current_dice_amount rand
  · simp only [hf, if_true]
    exact refresh_sum d.dice d.current_dice_amount rand

lemma finish_roll_bounds_aux (d : Dice) (rand : Nat → Int) (now : Nat)
    (hcnt1 : 1 ≤ d.current_dice_amount)
    (hrand : ∀ i, 0 ≤ rand i ∧ rand i < d.get_dice_type) :
    d.current_dice_amount ≤ (d.finish_roll rand now).1 ∧
    (d.finish_roll rand now).1 ≤ d.get_dice_type * d.current_dice_amount := by
  obtain ⟨hv, _⟩ := finish_roll_val d rand now
  have hb := sum_range_map_bounds d.current_dice_amount.toNat
    (fun (i : Nat) => rand i + 1) d.get_dice_type
    (fun i _ => ⟨by have h := (hrand i).1; show (1 : Int) ≤ rand i + 1; omega,
      by have h := (hrand i).2; show rand i + 1 ≤ d.get_dice_type; omega⟩)
  have hcast : (d.current_dice_amount.toNat : Int) = d.current_dice_amount :=
    Int.toNat_of_nonneg (by omega)
  rw [hv]
  rw [hcast] at hb
  exact hb

/-- C4: for a reachable configuration (`1 ≤ count ≤ 9`), `finish_roll`
sums `count` draws, each a `random(faces)` value plus one and hence in
`[1, faces]`; the sum is stored as the new `last_roll` and returned, and
it always lies in `[count, faces * count]`. -/
theorem finish_roll_sum_bounds (d : Dice) (rand : Nat → Int) (now : Nat)
    (hcnt1 : 1 ≤ d.current_dice_amount) (hcnt9 : d.current_dice_amount ≤ 9)
    (hrand : ∀ i, 0 ≤ rand i ∧ rand i < d.get_dice_type) :
    (d.finish_roll rand now).2.last_roll = (d.finish_roll rand now).1 ∧
    d.current_dice_amount ≤ (d.finish_roll rand now).1 ∧
    (d.finish_roll rand now).1 ≤ d.get_dice_type * d.current_dice_amount := by
  have _ := hcnt9
  exact ⟨(finish_roll_val d rand now).2,
    finish_roll_bounds_aux d rand now hcnt1 hrand⟩

/-- Witness for C4: one d6 (`Dice.init`) with all draws 0. -/
theorem finish_roll_sum_bounds_witness :
    (1 ≤ Dice.init.current_dice_amount ∧ Dice.init.current_dice_amount ≤ 9 ∧
      (∀ i : Nat, 0 ≤ (fun _ : Nat => (0 : Int)) i ∧
        (fun _ : Nat => (0 : Int)) i < Dice.init.get_dice_type)) ∧
    ((Dice.init.finish_roll (fun _ => 0) 0).2.last_roll =
        (Dice.init.finish_roll (fun _ => 0) 0).1 ∧
      Dice.init.current_dice_amount ≤ (Dice.init.finish_roll (fun _ => 0) 0).1 ∧
      (Dice.init.finish_roll (fun _ => 0) 0).1 ≤
        Dice.init.get_dice_type * Dice.init.current_dice_amount) :=
  ⟨⟨by norm_num [Dice.init], by norm_num [Dice.init],
      fun i => ⟨le_refl 0, by norm_num [Dice.init, Dice.get_dice_type, dice_types]⟩⟩,
    finish_roll_sum_bounds Dice.init (fun _ => 0) 0
      (by norm_num [Dice.init]) (by norm_num [Dice.init])
      (fun i => ⟨le_refl 0, by norm_num [Dice.init, Dice.get_dice_type, dice_types]⟩)⟩

lemma config_tick_clears_memory (s : Sys) (rsig tsig asig : Button_signal)
    (tn : Nat) (rand : Nat → Int)
    (hconf : s.current_state = CONFIG)
    (hpress : tsig = PRESSED ∨ asig = PRESSED) :
    (tick s rsig tsig asig tn rand).dice.last_roll = -1 := by
  unfold tick
  rw [hconf]
  by_cases hts : tsig = PRESSED <;> by_cases has : asig = PRESSED <;>
    by_cases hrs : rsig = PRESSED <;>
      simp_all [Dice.reset_roll_memory, Dice.next_dice_type,
        Dice.next_dice_amount, Display.multiplex, Display.update_active_index,
        Display.multiplex_animation, Display.write_number,
        Display.write_config_string]

/-- C6: the sentinel `-1` is strictly below every sum `finish_roll` can
compute (a real sum is at least `count ≥ 1`); `has_roll_in_memory` is
false exactly when `last_roll` is the sentinel; the result starts as the
sentinel after `Dice::init`, and any `CONFIG` tick that changes the type
or the amount leaves `last_roll` at the sentinel (`reset_roll_memory`
runs before each change). -/
theorem sentinel_contract (d : Dice) (rand : Nat → Int) (now : Nat)
    (s : Sys) (rsig tsig asig : Button_signal) (tn : Nat) (rand2 : Nat → Int)
    (hcnt1 : 1 ≤ d.current_dice_amount)
    (hrand : ∀ i, 0 ≤ rand i ∧ rand i < d.get_dice_type)
    (hconf : s.current_state = CONFIG)
    (hpress : tsig = PRESSED ∨ asig = PRESSED) :
    (-1 : Int) < (d.finish_roll rand now).1 ∧
    (d.has_roll_in_memory = false ↔ d.last_roll = -1) ∧
    Dice.init.last_roll = -1 ∧
    (tick s rsig tsig asig tn rand2).dice.last_roll = -1 := by
  refine ⟨?_, ?_, by norm_num [Dice.init], ?_⟩
  · have hb := (finish_roll_bounds_aux d rand now hcnt1 hrand).1
    omega
  · simp [Dice.has_roll_in_memory]
  · exact config_tick_clears_memory s rsig tsig asig tn rand2 hconf hpress

/-- Witness for C6: `Dice.init` (one d6), all draws 0, and a `CONFIG`
tick with the type button pressed. -/
theorem sentinel_contract_witness :
    (1 ≤ Dice.init.current_dice_amount ∧
      (∀ i : Nat, 0 ≤ (fun _ : Nat => (0 : Int)) i ∧
        (fun _ : Nat => (0 : Int)) i < Dice.init.get_dice_type) ∧
      (setup 0).current_state = CONFIG ∧
      (PRESSED = PRESSED ∨ NOTHING = PRESSED)) ∧
    ((-1 : Int) < (Dice.init.finish_roll (fun _ => 0) 0).1 ∧
      (Dice.init.has_roll_in_memory = false ↔ Dice.init.last_roll = -1) ∧
      Dice.init.last_roll = -1 ∧
      (tick (setup 0) NOTHING PRESSED NOTHING 0 (fun _ => 0)).dice.last_roll = -1) :=
  ⟨⟨by norm_num [Dice.init],
      fun i => ⟨le_refl 0, by norm_num [Dice.init, Dice.get_dice_type, dice_types]⟩,
      rfl, Or.inl rfl⟩,
    sentinel_contract Dice.init (fun _ => 0) 0 (setup 0) NOTHING PRESSED NOTHING 0
      (fun _ => 0) (by norm_num [Dice.init])
      (fun i => ⟨le_refl 0, by norm_num [Dice.init, Dice.get_dice_type, dice_types]⟩)
      rfl (Or.inl rfl)⟩

/-! ## Claims C3 and C9: the IDLE tick -/

lemma update_active_index_frame (dp : Display) (tn : Nat) :
    (dp.update_active_index tn).current_animation_frame =
      dp.current_animation_frame := by
  unfold Display.update_active_index
  rcases h : (dp.multiplex_timer.should_signal tn).1 <;> simp [h]

lemma update_active_index_anim_timer (dp : Display) (tn : Nat) :
    (dp.update_active_index tn).animation_timer = dp.animation_timer := by
  unfold Display.update_active_index
  rcases h : (dp.multiplex_timer.should_signal tn).1 <;> simp [h]

lemma update_active_index_buffer (dp : Display) (tn : Nat) :
    (dp.update_active_index tn).display_buffer = dp.display_buffer := by
  unfold Display.update_active_index
  rcases h : (dp.multiplex_timer.should_signal tn).1 <;> simp [h]

lemma multiplex_animation_frame (dp : Display) (tn m : Nat) :
    (dp.multiplex_animation tn m).current_animation_frame =
      dp.current_animation_frame := by
  unfold Display.multiplex_animation
  by_cases hle : ((m : Int) ≤ (dp.update_active_index tn).current_active_index) <;>
    simp [hle, update_active_index_frame]

lemma multiplex_animation_anim_timer (dp : Display) (tn m : Nat) :
    (dp.multiplex_animation tn m).animation_timer = dp.animation_timer := by
  unfold Display.multiplex_animation
  by_cases hle : ((m : Int) ≤ (dp.update_active_index tn).current_active_index) <;>
    simp [hle, update_active_index_anim_timer]

lemma multiplex_animation_buffer (dp : Display) (tn m : Nat) :
    (dp.multiplex_animation tn m).display_buffer = dp.display_buffer := by
  unfold Display.multiplex_animation
  by_cases hle : ((m : Int) ≤ (dp.update_active_index tn).current_active_index) <;>
    simp [hle, update_active_index_buffer]

/-- C3 counterexample: a tick beginning in `IDLE` whose roll button
signals `PRESSED` (and whose memory is even empty, so the Generating
condition of the claim holds) but whose type button also signals
`PRESSED` ends in `CONFIG`, not in `GENERATING`. -/
theorem idle_tick_not_generating_cex :
    (tick (Sys.mk IDLE Dice.init (Display.init 0)) PRESSED PRESSED NOTHING 0
        (fun _ => 0)).current_state ≠ GENERATING ∧
    (tick (Sys.mk IDLE Dice.init (Display.init 0)) PRESSED PRESSED NOTHING 0
        (fun _ => 0)).current_state = CONFIG := by
  constructor <;> decide

/-- C3 (amended): on a tick beginning in `IDLE`, if the roll button
signals `PRESSED` or the dice engine has no result in memory — and
neither the type nor the amount button signals `PRESSED` on that same
tick — the controller calls `start_roll`, prepares and advances the
animation, and the tick ends in `GENERATING`; in particular `IDLE`
auto-transitions to `GENERATING` without any roll press whenever the
result memory is empty. -/
theorem idle_tick_to_generating (s : Sys) (rsig tsig asig : Button_signal)
    (tn : Nat) (rand : Nat → Int)
    (hidle : s.current_state = IDLE)
    (hgen : rsig = PRESSED ∨ s.dice.has_roll_in_memory = false)
    (hts : tsig ≠ PRESSED) (has : asig ≠ PRESSED) :
    (tick s rsig tsig asig tn rand).current_state = GENERATING ∧
    (tick s rsig tsig asig tn rand).dice.roll_start_time = tn % U32 ∧
    (tick s rsig tsig asig tn rand).disp.current_animation_frame =
      animation_start_frame >>> 1 ∧
    (tick s rsig tsig asig tn rand).disp.animation_timer.last_event =
      tn % U32 := by
  rcases hgen with h | h <;>
    simp [tick, hidle, h, hts, has, multiplex_animation_frame,
      multiplex_animation_anim_timer, Dice.start_roll, Display.prepare_animation,
      Display.next_animation, Timer.reset_last_event_time,
      animation_start_frame, animation_end_frame]

/-- Witness for C3 (amended): `setup`-fresh dice (empty memory) in
`IDLE` with no button pressed at all. -/
theorem idle_tick_to_generating_witness :
    ((Sys.mk IDLE Dice.init (Display.init 0)).current_state = IDLE ∧
      (NOTHING = PRESSED ∨
        (Sys.mk IDLE Dice.init (Display.init 0)).dice.has_roll_in_memory = false) ∧
      (NOTHING : Button_signal) ≠ PRESSED ∧ (NOTHING : Button_signal) ≠ PRESSED) ∧
    ((tick (Sys.mk IDLE Dice.init (Display.init 0)) NOTHING NOTHING NOTHING 7
        (fun _ => 0)).current_state = GENERATING ∧
      (tick (Sys.mk IDLE Dice.init (Display.init 0)) NOTHING NOTHING NOTHING 7
        (fun _ => 0)).dice.roll_start_time = 7 % U32 ∧
      (tick (Sys.mk IDLE Dice.init (Display.init 0)) NOTHING NOTHING NOTHING 7
        (fun _ => 0)).disp.current_animation_frame = animation_start_frame >>> 1 ∧
      (tick (Sys.mk IDLE Dice.init (Display.init 0)) NOTHING NOTHING NOTHING 7
        (fun _ => 0)).disp.animation_timer.last_event = 7 % U32) :=
  ⟨⟨rfl, Or.inr (by decide), by decide, by decide⟩,
    idle_tick_to_generating (Sys.mk IDLE Dice.init (Display.init 0))
      NOTHING NOTHING NOTHING 7 (fun _ => 0) rfl
      (Or.inr (by decide)) (by decide) (by decide)⟩

/-- C9: on a single `IDLE` tick where the Generating condition holds
(roll `PRESSED` or empty memory) and the type or amount button also
signals `PRESSED`, the tick ends in `CONFIG` — the second branch
overwrites the `GENERATING` transition — even though the `start_roll`,
`prepare_animation` and `next_animation` side effects of the first
branch have already been executed (`roll_start_time` is stamped, the
animation frame is advanced from the start frame and the animation
timer is re-armed to this tick). -/
theorem idle_tick_config_overwrites (s : Sys) (rsig tsig asig : Button_signal)
    (tn : Nat) (rand : Nat → Int)
    (hidle : s.current_state = IDLE)
    (hgen : rsig = PRESSED ∨ s.dice.has_roll_in_memory = false)
    (hcfg : tsig = PRESSED ∨ asig = PRESSED) :
    (tick s rsig tsig asig tn rand).current_state = CONFIG ∧
    (tick s rsig tsig asig tn rand).dice.roll_start_time = tn % U32 ∧
    (tick s rsig tsig asig tn rand).disp.current_animation_frame =
      animation_start_frame >>> 1 ∧
    (tick s rsig tsig asig tn rand).disp.animation_timer.last_event =
      tn % U32 := by
  rcases hgen with h | h <;> rcases hcfg with h2 | h2 <;>
    simp [tick, hidle, h, h2, Display.multiplex, update_active_index_frame,
      update_active_index_anim_timer, Display.write_config_string,
      Dice.start_roll, Display.prepare_animation, Display.next_animation,
      Timer.reset_last_event_time, animation_start_frame, animation_end_frame]

/-- Witness for C9: fresh dice in `IDLE`, roll and type both pressed. -/
theorem idle_tick_config_overwrites_witness :
    ((Sys.mk IDLE Dice.init (Display.init 0)).current_state = IDLE ∧
      ((PRESSED : Button_signal) = PRESSED ∨
        (Sys.mk IDLE Dice.init (Display.init 0)).dice.has_roll_in_memory = false) ∧
      ((PRESSED : Button_signal) = PRESSED ∨ (NOTHING : Button_signal) = PRESSED)) ∧
    ((tick (Sys.mk IDLE Dice.init (Display.init 0)) PRESSED PRESSED NOTHING 3
        (fun _ => 0)).current_state = CONFIG ∧
      (tick (Sys.mk IDLE Dice.init (Display.init 0)) PRESSED PRESSED NOTHING 3
        (fun _ => 0)).dice.roll_start_time = 3 % U32 ∧
      (tick (Sys.mk IDLE Dice.init (Display.init 0)) PRESSED PRESSED NOTHING 3
        (fun _ => 0)).disp.current_animation_frame = animation_start_frame >>> 1 ∧
      (tick (Sys.mk IDLE Dice.init (Display.init 0)) PRESSED PRESSED NOTHING 3
        (fun _ => 0)).disp.animation_timer.last_event = 3 % U32) :=
  ⟨⟨rfl, Or.inl rfl, Or.inl rfl⟩,
    idle_tick_config_overwrites (Sys.mk IDLE Dice.init (Display.init 0))
      PRESSED PRESSED NOTHING 3 (fun _ => 0) rfl (Or.inl rfl) (Or.inl rfl)⟩

/-! ## Claim C10: sentinel reaches write_number -/

lemma write_number_neg_one (buffer : Nat → Char) :
    buf_cells (write_number buffer (-1)) = [' ', ' ', ' ', '/'] := rfl

/-- C10: a `CONFIG` tick with the roll button `PRESSED` while no roll is
in memory passes the sentinel `-1` straight to `write_number` via
`get_last_roll` (no has-result guard): the tick ends in `IDLE` with the
display buffer holding three blanks and the character `'/'` (code
`'0' - 1`), which is not a decimal digit, and `output_char` renders it
as the blank glyph. -/
theorem config_roll_shows_sentinel (s : Sys) (rsig tsig asig : Button_signal)
    (tn : Nat) (rand : Nat → Int) (digitsTable : Nat → Nat)
    (hconf : s.current_state = CONFIG) (hroll : rsig = PRESSED)
    (hmem : s.dice.has_roll_in_memory = false) :
    buf_cells (tick s rsig tsig asig tn rand).disp.display_buffer =
      [' ', ' ', ' ', '/'] ∧
    (tick s rsig tsig asig tn rand).current_state = IDLE ∧
    ¬ ('0' ≤ '/' ∧ '/' ≤ '9') ∧
    output_char_glyph digitsTable '/' = empty_glyph := by
  have hlr : s.dice.last_roll = -1 := by
    simpa [Dice.has_roll_in_memory] using hmem
  refine ⟨?_, ?_, by decide, rfl⟩
  · by_cases hts : tsig = PRESSED <;> by_cases has : asig = PRESSED <;>
      simp [tick, hconf, hroll, hts, has, hlr, Dice.get_last_roll,
        Dice.reset_roll_memory, Dice.next_dice_type, Dice.next_dice_amount,
        Display.write_number, Display.write_config_string, Display.multiplex,
        update_active_index_buffer, write_number_neg_one]
  · by_cases hts : tsig = PRESSED <;> by_cases has : asig = PRESSED <;>
      simp [tick, hconf, hroll, hts, has, Display.multiplex,
        Display.write_number, Display.write_config_string,
        Display.update_active_index]

/-- Witness for C10: fresh `setup`-state dice (`last_roll = -1`) in
`CONFIG`, roll pressed, nothing else pressed. -/
theorem config_roll_shows_sentinel_witness :
    ((Sys.mk CONFIG Dice.init (Display.init 0)).current_state = CONFIG ∧
      (PRESSED : Button_signal) = PRESSED ∧
      (Sys.mk CONFIG Dice.init (Display.init 0)).dice.has_roll_in_memory = false) ∧
    (buf_cells (tick (Sys.mk CONFIG Dice.init (Display.init 0)) PRESSED NOTHING
        NOTHING 0 (fun _ => 0)).disp.display_buffer = [' ', ' ', ' ', '/'] ∧
      (tick (Sys.mk CONFIG Dice.init (Display.init 0)) PRESSED NOTHING NOTHING 0
        (fun _ => 0)).current_state = IDLE ∧
      ¬ ('0' ≤ '/' ∧ '/' ≤ '9') ∧
      output_char_glyph (fun _ => 0) '/' = empty_glyph) :=
  ⟨⟨rfl, rfl, by decide⟩,
    config_roll_shows_sentinel (Sys.mk CONFIG Dice.init (Display.init 0))
      PRESSED NOTHING NOTHING 0 (fun _ => 0) (fun _ => 0) rfl rfl (by decide)⟩

/-! ## Claim C8: write_number renders right-justified decimals -/

/-- Decimal digit character. -/
def digitChar (k : Nat) : Char := Char.ofNat (k + 48)

/-- The rendering the spec describes for `write_number(n)`: the decimal
digits of `n`, right-justified into 4 cells, left-padded with blanks. -/
def spec_digits4 (n : Nat) : List Char :=
  if n < 10 then [' ', ' ', ' ', digitChar n]
  else if n < 100 then [' ', ' ', digitChar (n / 10), digitChar (n % 10)]
  else if n < 1000 then
    [' ', digitChar (n / 100), digitChar (n / 10 % 10), digitChar (n % 10)]
  else
    [digitChar (n / 1000), digitChar (n / 100 % 10), digitChar (n / 10 % 10),
      digitChar (n % 10)]

lemma tmod_coe (m : Nat) : Int.tmod (↑m) 10 = ↑(m % 10) := rfl

lemma tdiv_coe (m : Nat) : Int.tdiv (↑m) 10 = ↑(m / 10) := rfl

lemma wnn_zero (buffer : Nat → Char) (number index : Int) :
    write_next_number buffer number index 0 = (buffer, index) := rfl

lemma wnn_stop (buffer : Nat → Char) (m : Nat) (index : Int) (L : Nat)
    (hL : 0 < L) (h10 : m < 10) :
    write_next_number buffer (↑m) index L =
      (fun (j : Nat) => if (j : Int) = index then digitChar m else buffer j,
        index - 1) := by
  cases L with
  | zero => omega
  | succ L =>
      simp only [write_next_number, tmod_coe, tdiv_coe]
      rw [if_pos (show ((m / 10 : Nat) : Int) < 1 by omega)]
      congr 1
      funext j
      split
      · unfold digitChar
        congr 1
        omega
      · rfl

lemma wnn_cont (buffer : Nat → Char) (m : Nat) (index : Int) (L : Nat)
    (hL : 0 < L) (h10 : 10 ≤ m) :
    write_next_number buffer (↑m) index L =
      write_next_number
        (fun (j : Nat) => if (j : Int) = index then digitChar (m % 10) else buffer j)
        (↑(m / 10)) (index - 1) (L - 1) := by
  cases L with
  | zero => omega
  | succ L =>
      simp only [write_next_number, tmod_coe, tdiv_coe, Nat.add_sub_cancel]
      rw [if_neg (show ¬ ((m / 10 : Nat) : Int) < 1 by omega)]
      congr 1

lemma wn_digits1 (buffer : Nat → Char) (n : Nat) (h2 : n < 10) :
    buf_cells (write_number buffer (↑n)) = [' ', ' ', ' ', digitChar n] := by
  unfold write_number
  rw [wnn_stop buffer n 3 4 (by norm_num) h2]
  simp [buf_cells, erase_others]

lemma wn_digits2 (buffer : Nat → Char) (n : Nat) (h1 : 10 ≤ n) (h2 : n < 100) :
    buf_cells (write_number buffer (↑n)) =
      [' ', ' ', digitChar (n / 10), digitChar (n % 10)] := by
  unfold write_number
  rw [wnn_cont buffer n 3 4 (by norm_num) h1]
  rw [wnn_stop _ (n / 10) (3 - 1) (4 - 1) (by norm_num) (by omega)]
  simp [buf_cells, erase_others]

lemma wn_digits3 (buffer : Nat → Char) (n : Nat) (h1 : 100 ≤ n) (h2 : n < 1000) :
    buf_cells (write_number buffer (↑n)) =
      [' ', digitChar (n / 100), digitChar (n / 10 % 10), digitChar (n % 10)] := by
  unfold write_number
  rw [wnn_cont buffer n 3 4 (by norm_num) (by omega)]
  rw [wnn_cont _ (n / 10) (3 - 1) (4 - 1) (by norm_num) (by omega)]
  rw [wnn_stop _ (n / 10 / 10) (3 - 1 - 1) (4 - 1 - 1) (by norm_num) (by omega)]
  have e1 : n / 10 / 10 = n / 100 := by omega
  rw [e1]
  simp [buf_cells, erase_others]

lemma wn_digits4 (buffer : Nat → Char) (n : Nat) (h1 : 1000 ≤ n) (h2 : n ≤ 9999) :
    buf_cells (write_number buffer (↑n)) =
      [digitChar (n / 1000), digitChar (n / 100 % 10), digitChar (n / 10 % 10),
        digitChar (n % 10)] := by
  unfold write_number
  rw [wnn_cont buffer n 3 4 (by norm_num) (by omega)]
  rw [wnn_cont _ (n / 10) (3 - 1) (4 - 1) (by norm_num) (by omega)]
  rw [wnn_cont _ (n / 10 / 10) (3 - 1 - 1) (4 - 1 - 1) (by norm_num) (by omega)]
  rw [wnn_stop _ (n / 10 / 10 / 10) (3 - 1 - 1 - 1) (4 - 1 - 1 - 1)
    (by norm_num) (by omega)]
  have e1 : n / 10 / 10 = n / 100 := by omega
  have e2 : n / 10 / 10 / 10 = n / 1000 := by omega
  rw [e1] at *
  rw [e2]
  simp [buf_cells, erase_others]

/-- C8: for every `n` in 0..9999 and any prior buffer contents,
`write_number(n)` leaves the 4-cell buffer holding exactly the decimal
digits of `n` right-justified (lowest digit in the last cell), with all
unused leading cells blanked. -/
theorem write_number_renders_decimal (buffer : Nat → Char) (n : Nat)
    (h : n ≤ 9999) :
    buf_cells (write_number buffer (↑n)) = spec_digits4 n := by
  rcases lt_or_ge n 10 with h1 | h1
  · rw [wn_digits1 buffer n h1]
    simp [spec_digits4, h1]
  · rcases lt_or_ge n 100 with h2 | h2
    · rw [wn_digits2 buffer n h1 h2]
      simp [spec_digits4, h2, show ¬ n < 10 by omega]
    · rcases lt_or_ge n 1000 with h3 | h3
      · rw [wn_digits3 buffer n h2 h3]
        simp [spec_digits4, h3, show ¬ n < 10 by omega, show ¬ n < 100 by omega]
      · rw [wn_digits4 buffer n h3 h]
        simp [spec_digits4, show ¬ n < 10 by omega, show ¬ n < 100 by omega,
          show ¬ n < 1000 by omega]

/-- Witness for C8 at `n = 207`. -/
theorem write_number_renders_decimal_witness :
    (207 : Nat) ≤ 9999 ∧
    buf_cells (write_number (fun _ => 'x') ((207 : Nat) : Int)) =
      spec_digits4 207 :=
  ⟨by norm_num,
    write_number_renders_decimal (fun _ => 'x') 207 (by norm_num)⟩

/-! ## Claim C7: config-string layout -/

/-- The face table as naturals, for quantifying over valid types. -/
def dice_types_nat : List Nat := [4, 6, 8, 10, 12, 20, 100]

/-- The rendering `write_config_string` actually produces: amount digit,
`'d'` marker, then the trailing (at most two) decimal digits of the
type, right-justified into the 4 cells, with the leading cell blanked
when the type has a single digit.  The `'d'` cell is index 2 for
one-digit types and index 1 otherwise (for type 100 only the trailing
"00" fits). -/
def spec_config4 (amount typ : Nat) : List Char :=
  if typ < 10 then [' ', digitChar amount, 'd', digitChar typ]
  else [digitChar amount, 'd', digitChar (typ / 10 % 10), digitChar (typ % 10)]

/-- C7 counterexample: the `'d'` marker has no fixed buffer offset — for
the valid configurations `(1, 6)` and `(3, 20)` the `'d'` cell index
differs (2 versus 1), so no single offset holds `'d'` for every valid
amount and type. -/
theorem write_config_no_fixed_offset_cex :
    (¬ ∃ p : Fin 4,
      (buf_cells (write_config_string (fun _ => ' ') 1 6)).getD p.val ' ' = 'd' ∧
      (buf_cells (write_config_string (fun _ => ' ') 3 20)).getD p.val ' ' = 'd') ∧
    buf_cells (write_config_string (fun _ => ' ') 1 6) = [' ', '1', 'd', '6'] ∧
    buf_cells (write_config_string (fun _ => ' ') 3 20) = ['3', 'd', '2', '0'] := by
  refine ⟨by decide, by decide, by decide⟩

lemma wnn_t4 (b : Nat → Char) : write_next_number b 4 3 2 =
    (fun (j : Nat) => if (j : Int) = 3 then '4' else b j, 2) := rfl

lemma wnn_t6 (b : Nat → Char) : write_next_number b 6 3 2 =
    (fun (j : Nat) => if (j : Int) = 3 then '6' else b j, 2) := rfl

lemma wnn_t8 (b : Nat → Char) : write_next_number b 8 3 2 =
    (fun (j : Nat) => if (j : Int) = 3 then '8' else b j, 2) := rfl

lemma wnn_t10 (b : Nat → Char) : write_next_number b 10 3 2 =
    (fun (j : Nat) => if (j : Int) = 2 then '1'
      else if (j : Int) = 3 then '0' else b j, 1) := rfl

lemma wnn_t12 (b : Nat → Char) : write_next_number b 12 3 2 =
    (fun (j : Nat) => if (j : Int) = 2 then '1'
      else if (j : Int) = 3 then '2' else b j, 1) := rfl

lemma wnn_t20 (b : Nat → Char) : write_next_number b 20 3 2 =
    (fun (j : Nat) => if (j : Int) = 2 then '2'
      else if (j : Int) = 3 then '0' else b j, 1) := rfl

lemma wnn_t100 (b : Nat → Char) : write_next_number b 100 3 2 =
    (fun (j : Nat) => if (j : Int) = 2 then '0'
      else if (j : Int) = 3 then '0' else b j, 1) := rfl

/-- C7 (amended): for every amount in 1..9 and type in the face table
and any prior buffer contents, `write_config_string(amount, type)`
renders the amount digit, the `'d'` marker and the trailing (at most 2)
decimal digits of the type right-justified into the 4 cells, blanking
the leading cell for one-digit types; the `'d'` cell is index 2 for
one-digit types and index 1 for two-or-more-digit types (type 100 is
truncated to its trailing "00"); e.g. (3,20) gives cells "3d20" and
(1,6) gives " 1d6". -/
theorem write_config_string_layout (buffer : Nat → Char) (a typ : Nat)
    (ha1 : 1 ≤ a) (ha9 : a ≤ 9) (ht : typ ∈ dice_types_nat) :
    buf_cells (write_config_string buffer (↑a) (↑typ)) = spec_config4 a typ := by
  have ha10 : a < 10 := by omega
  simp only [dice_types_nat] at ht
  fin_cases ht <;>
    simp [write_config_string, wnn_stop, wnn_t4, wnn_t6, wnn_t8, wnn_t10,
      wnn_t12, wnn_t20, wnn_t100, ha10, spec_config4, buf_cells, erase_others,
      digitChar]

/-- Witness for C7 (amended) at amount 3, type 20. -/
theorem write_config_string_layout_witness :
    (1 ≤ (3 : Nat) ∧ (3 : Nat) ≤ 9 ∧ (20 : Nat) ∈ dice_types_nat) ∧
    buf_cells (write_config_string (fun _ => ' ') ((3 : Nat) : Int) ((20 : Nat) : Int)) =
      spec_config4 3 20 :=
  ⟨⟨by norm_num, by norm_num, by decide⟩,
    write_config_string_layout (fun _ => ' ') 3 20 (by norm_num) (by norm_num)
      (by decide)⟩

end DiceFw
